import Mathlib

set_option maxRecDepth 100000

/-!
Shallow embedding of the GitHub-activity reporting script (src/index.ts).

The script is a linear pipeline: fetch events, filter to personal recent
events, aggregate four counters, render badges, format the activity log,
and splice a block between two marker comments of a README file.

Modelling conventions:
* JavaScript strings are modelled as Lean `String`s; for the README
  splicing (`updateReadme`), where index arithmetic matters, strings are
  modelled as their lists of characters (`List Char`), which matches
  JavaScript's `indexOf`/`substring` code-unit semantics on the ASCII
  markers involved.
* The loosely typed event `payload` is modelled as a record of optional
  fields (`commits`, `action`, `ref_type`): exactly the fields the
  script reads, each `Option` because the payload shape varies by type.
* Clock- and locale-dependent values (`new Date()`, `toLocaleString`
  with the Shanghai timezone) are passed in as explicit parameters
  (`nowStr`, `fmtTime`, `shanghaiTime`, and the per-event recency test
  `isRecent`), since the embedding has no real-time clock.  The
  surrounding pure logic is translated verbatim.
* File writes are modelled by returning the new file contents; a thrown
  error is modelled as `none`.
-/

/-- The `repo` field of a GitHub event: the script only reads `repo.name`,
the full `owner/repo` string. -/
structure RepoRef where
  name : String
deriving DecidableEq

/-- The fields of the loosely typed event `payload` that the script reads.
Each is optional because the payload shape depends on the event type. -/
structure Payload where
  commits : Option (List String) := none
  action : Option String := none
  ref_type : Option String := none
deriving DecidableEq

/-- `GitHubEvent` from src/index.ts: type, repository, payload, timestamp. -/
structure GitHubEvent where
  type : String
  repo : RepoRef
  payload : Payload
  created_at : String
deriving DecidableEq

/-- `ActivityStats` from src/index.ts: the four aggregate counters. -/
structure ActivityStats where
  commitCount : Nat
  repoCount : Nat
  prCount : Nat
  issueCount : Nat
deriving DecidableEq

/-- The loop body of `calculateActivityStats`: one event updates the
counters and the insertion-ordered set of distinct repository names
(a JavaScript `Set<string>` is modelled as a duplicate-free list in
insertion order). -/
def statsStep (acc : ActivityStats × List String) (event : GitHubEvent) :
    ActivityStats × List String :=
  let repos := if event.repo.name ∈ acc.2 then acc.2 else acc.2 ++ [event.repo.name]
  let stats := acc.1
  let stats :=
    if event.type = "PushEvent" then
      { stats with commitCount :=
          stats.commitCount + ((event.payload.commits.map List.length).getD 0) }
    else if event.type = "PullRequestEvent" then
      (if event.payload.action = some "opened" then
        { stats with prCount := stats.prCount + 1 }
      else stats)
    else if event.type = "IssuesEvent" then
      (if event.payload.action = some "opened" then
        { stats with issueCount := stats.issueCount + 1 }
      else stats)
    else stats
  (stats, repos)

/-- `calculateActivityStats` from src/index.ts: fold the loop body over the
event list starting from all-zero counters and an empty repo set, then set
`repoCount` to the size of the distinct-repository set. -/
def calculateActivityStats (events : List GitHubEvent) : ActivityStats :=
  let r := events.foldl statsStep (⟨0, 0, 0, 0⟩, [])
  { r.1 with repoCount := r.2.length }

/-- `generateBadges` from src/index.ts: four fixed markdown badge links,
joined by a single space (JavaScript `Array.join(' ')`). -/
def generateBadges (stats : ActivityStats) : String :=
  String.intercalate " "
    [ "![Recent Commits](https://img.shields.io/badge/Recent%20Commits-" ++
        toString stats.commitCount ++ "-blue?style=flat&logoColor=white)"
    , "![Active Repos](https://img.shields.io/badge/Active%20Repos-" ++
        toString stats.repoCount ++ "-green?style=flat&logoColor=white)"
    , "![Pull Requests](https://img.shields.io/badge/Pull%20Requests-" ++
        toString stats.prCount ++ "-orange?style=flat&logoColor=white)"
    , "![Issues Opened](https://img.shields.io/badge/Issues%20Opened-" ++
        toString stats.issueCount ++ "-red?style=flat&logoColor=white)" ]

/-- One badge link in the shape the spec prescribes:
`![Label](https://img.shields.io/badge/Label-<value>-<color>?style=<style>&logoColor=white)`
with the URL-encoded label passed separately and style `flat`.
This definition follows the spec's words, to be compared with
`generateBadges` (the definition from the source). -/
def specBadgeLink (label urlLabel value color : String) : String :=
  ("![" ++ label ++ "](https://img.shields.io/badge/" ++ urlLabel ++ "-") ++
    value ++ ("-" ++ color ++ "?style=flat&logoColor=white)")

/-- The badge markup the spec prescribes: the four links with the fixed
label/color pairs, in the fixed order, joined by a single space. -/
def specBadges (stats : ActivityStats) : String :=
  String.intercalate " "
    [ specBadgeLink "Recent Commits" "Recent%20Commits" (toString stats.commitCount) "blue"
    , specBadgeLink "Active Repos" "Active%20Repos" (toString stats.repoCount) "green"
    , specBadgeLink "Pull Requests" "Pull%20Requests" (toString stats.prCount) "orange"
    , specBadgeLink "Issues Opened" "Issues%20Opened" (toString stats.issueCount) "red" ]

/-- The per-event line of `formatActivityForAI`: the `switch` over
`event.type`.  `fmtTime` stands for the locale/timezone rendering of
`event.created_at` (Shanghai time); missing optional payload fields print
as `"undefined"`, as JavaScript template literals do. -/
def formatEventLine (fmtTime : String → String) (event : GitHubEvent) : String :=
  let shanghaiEventTime := fmtTime event.created_at
  let repo := event.repo.name
  match event.type with
  | "PushEvent" =>
      let commits := (event.payload.commits.map List.length).getD 0
      "- " ++ shanghaiEventTime ++ ": Pushed " ++ toString commits ++
        " commit(s) to " ++ repo ++ "\n"
  | "CreateEvent" =>
      let refType := event.payload.ref_type.getD "undefined"
      "- " ++ shanghaiEventTime ++ ": Created " ++ refType ++ " in " ++ repo ++ "\n"
  | "IssuesEvent" =>
      let action := event.payload.action.getD "undefined"
      "- " ++ shanghaiEventTime ++ ": " ++ action ++ " issue in " ++ repo ++ "\n"
  | "PullRequestEvent" =>
      let prAction := event.payload.action.getD "undefined"
      "- " ++ shanghaiEventTime ++ ": " ++ prAction ++ " pull request in " ++ repo ++ "\n"
  | "WatchEvent" => "- " ++ shanghaiEventTime ++ ": Starred " ++ repo ++ "\n"
  | "ForkEvent" => "- " ++ shanghaiEventTime ++ ": Forked " ++ repo ++ "\n"
  | "ReleaseEvent" => "- " ++ shanghaiEventTime ++ ": Released in " ++ repo ++ "\n"
  | _ => "- " ++ shanghaiEventTime ++ ": " ++ event.type ++ " in " ++ repo ++ "\n"

/-- `formatActivityForAI` from src/index.ts.  `nowStr` stands for the
locale rendering of the current Shanghai time in the header; `fmtTime`
renders each event's timestamp. -/
def formatActivityForAI (nowStr : String) (fmtTime : String → String)
    (events : List GitHubEvent) : String :=
  let header := "GitHub Activity from the Past 24 Hours (as of " ++ nowStr ++
    " Shanghai time):\n\n"
  if events.length = 0 then
    header ++ "No recent activity in personal repositories during the past 24 hours.\n"
  else
    events.foldl (fun acc event => acc ++ formatEventLine fmtTime event) header

/-- `name.split('/')[0]` from the filter of `fetchRecentActivity`: the
owner segment of a full repository name, i.e. the characters before the
first slash (the whole string when there is no slash, the empty string
when the name starts with a slash — exactly JavaScript's behaviour). -/
def ownerSegment (name : String) : String :=
  ⟨name.data.takeWhile (fun c => c != '/')⟩

/-- The filter predicate of `fetchRecentActivity`: keep an event exactly
when its repository owner segment equals the resolved login, and the
clock-dependent 24-hour-window test `isRecent` (the embedding of
`isWithinPastDay`, which reads the real-time clock) accepts it. -/
def keepsEvent (login : String) (isRecent : GitHubEvent → Bool)
    (event : GitHubEvent) : Bool :=
  let repoOwner := ownerSegment event.repo.name
  let isPersonalRepo := repoOwner == login
  isPersonalRepo && isRecent event

/-- The filtering step of `fetchRecentActivity` from src/index.ts, applied
to the raw event list returned by the hosting API. -/
def filterRecentPersonal (login : String) (isRecent : GitHubEvent → Bool)
    (events : List GitHubEvent) : List GitHubEvent :=
  events.filter (keepsEvent login isRecent)

/-- The start marker literal of `updateReadme`, as a character list. -/
def startMarkerL : List Char := "<!-- GITHUB_ACTIVITY_START -->".data

/-- The end marker literal of `updateReadme`, as a character list. -/
def endMarkerL : List Char := "<!-- GITHUB_ACTIVITY_END -->".data

/-- Does `pat` match at the front of `s`?  (One position of the
`String.indexOf` scan.) -/
def hasPref (pat s : List Char) : Bool := decide (s.take pat.length = pat)

/-- JavaScript `String.indexOf`: index of the first occurrence of `pat`
in `s`, or `none` where JavaScript returns `-1`. -/
def firstIdx (pat : List Char) : List Char → Option Nat
  | [] => if hasPref pat [] then some 0 else none
  | c :: rest =>
      if hasPref pat (c :: rest) then some 0
      else (firstIdx pat rest).map (fun i => i + 1)

/-- `pat` occurs in `s` at position `i`. -/
def occursAt (pat s : List Char) (i : Nat) : Prop :=
  (s.drop i).take pat.length = pat

instance (pat s : List Char) (i : Nat) : Decidable (occursAt pat s i) := by
  unfold occursAt; infer_instance

/-- `pat` occurs somewhere in `s` (boolean substring test). -/
def containsSub (pat s : String) : Bool := (firstIdx pat.data s.data).isSome

/-- The block `updateReadme` splices between the markers: the part of the
template literal strictly between `${beforeMarker}` and `${afterMarker}` —
heading, badges, blank line, summary, and the timestamp line
(`shanghaiTime` stands for the locale rendering of the current Shanghai
time). -/
def templateBlock (summary badges shanghaiTime : List Char) : List Char :=
  "\n\n## Recent Activity Stats\n\n".data ++ badges ++ "\n\n".data ++ summary ++
    "\n\n*Last updated: ".data ++ shanghaiTime ++ " (Shanghai time) *\n\n".data

/-- `updateReadme` from src/index.ts as a pure function on the target
file's contents: locate the first occurrences of the two markers
(`none` models the thrown error when either is missing, in which case no
write happens), keep the prefix through the end of the start marker and
the suffix from the start of the end marker, and splice the template
block between them. -/
def updateReadme (summary badges shanghaiTime content : List Char) :
    Option (List Char) :=
  match firstIdx startMarkerL content, firstIdx endMarkerL content with
  | some startIndex, some endIndex =>
      let beforeMarker := content.take (startIndex + startMarkerL.length)
      let afterMarker := content.drop endIndex
      some (beforeMarker ++ templateBlock summary badges shanghaiTime ++ afterMarker)
  | _, _ => none

/-- Commit contribution of one event to `commitCount`: the push branch of
the aggregator's `switch` (missing commit array contributes `0`). -/
def pushLen (e : GitHubEvent) : Nat :=
  if e.type = "PushEvent" then (e.payload.commits.map List.length).getD 0 else 0

/-- Contribution of one event to `prCount`. -/
def prInc (e : GitHubEvent) : Nat :=
  if e.type = "PullRequestEvent" ∧ e.payload.action = some "opened" then 1 else 0

/-- Contribution of one event to `issueCount`. -/
def issueInc (e : GitHubEvent) : Nat :=
  if e.type = "IssuesEvent" ∧ e.payload.action = some "opened" then 1 else 0

/-- One `Set.add` of the aggregator's distinct-repository set. -/
def addRepo (repos : List String) (n : String) : List String :=
  if n ∈ repos then repos else repos ++ [n]

/-! ## Aggregator lemmas -/

theorem statsStep_fst (acc : ActivityStats × List String) (e : GitHubEvent) :
    (statsStep acc e).1 =
      ⟨acc.1.commitCount + pushLen e, acc.1.repoCount,
       acc.1.prCount + prInc e, acc.1.issueCount + issueInc e⟩ := by
  obtain ⟨s, repos⟩ := acc
  cases s
  simp only [statsStep, pushLen, prInc, issueInc]
  by_cases h1 : e.type = "PushEvent"
  · simp [h1]
  · by_cases h2 : e.type = "PullRequestEvent"
    · by_cases h3 : e.payload.action = some "opened" <;> simp [h1, h2, h3]
    · by_cases h4 : e.type = "IssuesEvent"
      · by_cases h3 : e.payload.action = some "opened" <;> simp [h1, h2, h3, h4]
      · simp [h1, h2, h4]

theorem statsStep_snd (acc : ActivityStats × List String) (e : GitHubEvent) :
    (statsStep acc e).2 = addRepo acc.2 e.repo.name := by
  simp only [statsStep, addRepo]

theorem foldl_statsStep_fst :
    ∀ (events : List GitHubEvent) (s : ActivityStats) (repos : List String),
    (events.foldl statsStep (s, repos)).1 =
      ⟨s.commitCount + (events.map pushLen).sum, s.repoCount,
       s.prCount + (events.map prInc).sum, s.issueCount + (events.map issueInc).sum⟩
  | [], s, repos => by cases s; simp
  | e :: es, s, repos => by
    rw [List.foldl_cons,
      (rfl : statsStep (s, repos) e = ((statsStep (s, repos) e).1, (statsStep (s, repos) e).2)),
      foldl_statsStep_fst es, statsStep_fst]
    simp [ActivityStats.mk.injEq, Nat.add_assoc]

theorem foldl_statsStep_snd :
    ∀ (events : List GitHubEvent) (s : ActivityStats) (repos : List String),
    (events.foldl statsStep (s, repos)).2 =
      (events.map fun e => e.repo.name).foldl addRepo repos
  | [], _, _ => rfl
  | e :: es, s, repos => by
    rw [List.foldl_cons,
      (rfl : statsStep (s, repos) e = ((statsStep (s, repos) e).1, (statsStep (s, repos) e).2)),
      foldl_statsStep_snd es, statsStep_snd]
    rfl

theorem foldl_addRepo_toFinset :
    ∀ (names : List String) (repos : List String),
    (names.foldl addRepo repos).toFinset = repos.toFinset ∪ names.toFinset
  | [], repos => by simp
  | n :: ns, repos => by
    rw [List.foldl_cons, foldl_addRepo_toFinset ns]
    unfold addRepo
    split_ifs with h
    · ext x
      simp only [Finset.mem_union, List.mem_toFinset, List.mem_cons]
      constructor
      · rintro (hx | hx)
        · exact Or.inl hx
        · exact Or.inr (Or.inr hx)
      · rintro (hx | rfl | hx)
        · exact Or.inl hx
        · exact Or.inl h
        · exact Or.inr hx
    · ext x
      simp only [Finset.mem_union, List.mem_toFinset, List.mem_append,
        List.mem_cons, List.mem_singleton]
      tauto

theorem foldl_addRepo_nodup :
    ∀ (names : List String) (repos : List String),
    repos.Nodup → (names.foldl addRepo repos).Nodup
  | [], _, h => h
  | n :: ns, repos, h => by
    rw [List.foldl_cons]
    apply foldl_addRepo_nodup ns
    unfold addRepo
    split_ifs with hmem
    · exact h
    · rw [List.nodup_append]
      refine ⟨h, List.nodup_singleton n, ?_⟩
      intro a ha hb
      rw [List.mem_singleton] at hb
      subst hb
      exact hmem ha

theorem commitCount_eq (events : List GitHubEvent) :
    (calculateActivityStats events).commitCount = (events.map pushLen).sum := by
  simp [calculateActivityStats, foldl_statsStep_fst]

theorem prCount_eq (events : List GitHubEvent) :
    (calculateActivityStats events).prCount = (events.map prInc).sum := by
  simp [calculateActivityStats, foldl_statsStep_fst]

theorem issueCount_eq (events : List GitHubEvent) :
    (calculateActivityStats events).issueCount = (events.map issueInc).sum := by
  simp [calculateActivityStats, foldl_statsStep_fst]

theorem repoCount_eq (events : List GitHubEvent) :
    (calculateActivityStats events).repoCount =
      ((events.map fun e => e.repo.name).toFinset).card := by
  simp only [calculateActivityStats, foldl_statsStep_snd]
  rw [← List.toFinset_card_of_nodup (foldl_addRepo_nodup _ [] (List.nodup_nil)),
    foldl_addRepo_toFinset]
  simp

theorem sum_map_ite_filter {α : Type} (p : α → Prop) [DecidablePred p]
    (q : α → Bool) (hpq : ∀ a, q a = true ↔ p a) (f : α → Nat) :
    ∀ l : List α,
    (l.map fun e => if p e then f e else 0).sum = ((l.filter q).map f).sum
  | [] => rfl
  | a :: l => by
    by_cases h : p a
    · rw [List.map_cons, List.sum_cons, if_pos h,
        List.filter_cons_of_pos ((hpq a).mpr h), List.map_cons, List.sum_cons,
        sum_map_ite_filter p q hpq f l]
    · rw [List.map_cons, List.sum_cons, if_neg h,
        List.filter_cons_of_neg (by simp [hpq, h]),
        sum_map_ite_filter p q hpq f l, Nat.zero_add]

theorem count_ite_filter {α : Type} (p : α → Prop) [DecidablePred p]
    (q : α → Bool) (hpq : ∀ a, q a = true ↔ p a) :
    ∀ l : List α,
    (l.map fun e => if p e then 1 else 0).sum = (l.filter q).length
  | [] => rfl
  | a :: l => by
    by_cases h : p a
    · rw [List.map_cons, List.sum_cons, if_pos h,
        List.filter_cons_of_pos ((hpq a).mpr h), List.length_cons,
        count_ite_filter p q hpq l, Nat.add_comm]
    · rw [List.map_cons, List.sum_cons, if_neg h,
        List.filter_cons_of_neg (by simp [hpq, h]),
        count_ite_filter p q hpq l, Nat.zero_add]

theorem statsExt {a b : ActivityStats} (h1 : a.commitCount = b.commitCount)
    (h2 : a.repoCount = b.repoCount) (h3 : a.prCount = b.prCount)
    (h4 : a.issueCount = b.issueCount) : a = b := by
  cases a; cases b; simp_all

/-! ## Claims about the stats aggregator -/

/-- C1: for every event list, the stats aggregator's `repoCount` equals the
number of distinct repository full names occurring in the list, counting
every event regardless of its type. -/
theorem calculateActivityStats_repoCount_distinct (events : List GitHubEvent) :
    (calculateActivityStats events).repoCount =
      ((events.map fun e => e.repo.name).toFinset).card :=
  repoCount_eq events

/-- C2: for every event list, `commitCount` equals the sum, over events of
push type, of the length of the commit array in the event's payload, where
an event with a missing commit array contributes zero. -/
theorem calculateActivityStats_commitCount_sum (events : List GitHubEvent) :
    (calculateActivityStats events).commitCount =
      ((events.filter fun e => e.type == "PushEvent").map
        fun e => (e.payload.commits.map List.length).getD 0).sum := by
  rw [commitCount_eq]
  exact sum_map_ite_filter (fun e => e.type = "PushEvent")
    (fun e => e.type == "PushEvent") (fun a => by simp) _ events

/-- C3: `prCount` equals the number of pull-request events whose payload
action is exactly `"opened"`, `issueCount` equals the number of issue
events whose payload action is exactly `"opened"`, and appending an event
whose action is not `"opened"` (in particular one of the matching type
with any other action value) leaves both counters unchanged. -/
theorem calculateActivityStats_opened_counts (events : List GitHubEvent) :
    (calculateActivityStats events).prCount =
      (events.filter fun e =>
        e.type == "PullRequestEvent" && e.payload.action == some "opened").length ∧
    (calculateActivityStats events).issueCount =
      (events.filter fun e =>
        e.type == "IssuesEvent" && e.payload.action == some "opened").length ∧
    ∀ e : GitHubEvent, e.payload.action ≠ some "opened" →
      (calculateActivityStats (events ++ [e])).prCount =
          (calculateActivityStats events).prCount ∧
        (calculateActivityStats (events ++ [e])).issueCount =
          (calculateActivityStats events).issueCount := by
  refine ⟨?_, ?_, ?_⟩
  · rw [prCount_eq]
    exact count_ite_filter
      (fun e => e.type = "PullRequestEvent" ∧ e.payload.action = some "opened")
      (fun e => e.type == "PullRequestEvent" && e.payload.action == some "opened")
      (fun a => by simp) events
  · rw [issueCount_eq]
    exact count_ite_filter
      (fun e => e.type = "IssuesEvent" ∧ e.payload.action = some "opened")
      (fun e => e.type == "IssuesEvent" && e.payload.action == some "opened")
      (fun a => by simp) events
  · intro e he
    constructor
    · rw [prCount_eq, prCount_eq, List.map_append, List.sum_append]
      simp [prInc, he]
    · rw [issueCount_eq, issueCount_eq, List.map_append, List.sum_append]
      simp [issueInc, he]

/-- Witness for C3: a pull-request event with action `"closed"` leaves both
counters unchanged. -/
theorem calculateActivityStats_opened_counts_witness :
    (calculateActivityStats
        ([] ++ [⟨"PullRequestEvent", ⟨"alice/proj"⟩, ⟨none, some "closed", none⟩, "t"⟩])).prCount =
      (calculateActivityStats []).prCount ∧
    (calculateActivityStats
        ([] ++ [⟨"PullRequestEvent", ⟨"alice/proj"⟩, ⟨none, some "closed", none⟩, "t"⟩])).issueCount =
      (calculateActivityStats []).issueCount :=
  (calculateActivityStats_opened_counts []).2.2 _ (by decide)

/-- C10 (implicit): the stats aggregator is invariant under permutation of
its input event list. -/
theorem calculateActivityStats_perm_invariant (l1 l2 : List GitHubEvent)
    (h : l1.Perm l2) : calculateActivityStats l1 = calculateActivityStats l2 := by
  apply statsExt
  · rw [commitCount_eq, commitCount_eq]
    exact List.Perm.sum_eq (h.map pushLen)
  · rw [repoCount_eq, repoCount_eq, List.toFinset_eq_of_perm _ _ (h.map _)]
  · rw [prCount_eq, prCount_eq]
    exact List.Perm.sum_eq (h.map prInc)
  · rw [issueCount_eq, issueCount_eq]
    exact List.Perm.sum_eq (h.map issueInc)

/-- Witness for C10: swapping two concrete events leaves the stats equal. -/
theorem calculateActivityStats_perm_invariant_witness :
    calculateActivityStats
        [⟨"PushEvent", ⟨"alice/proj"⟩, ⟨some ["a", "b"], none, none⟩, "t1"⟩,
         ⟨"IssuesEvent", ⟨"alice/other"⟩, ⟨none, some "opened", none⟩, "t2"⟩] =
      calculateActivityStats
        [⟨"IssuesEvent", ⟨"alice/other"⟩, ⟨none, some "opened", none⟩, "t2"⟩,
         ⟨"PushEvent", ⟨"alice/proj"⟩, ⟨some ["a", "b"], none, none⟩, "t1"⟩] :=
  calculateActivityStats_perm_invariant _ _ (by decide)

/-! ## Claims about the badge generator and the activity filter -/

theorem specBadgeLink_eq (label urlLabel color pre post : String)
    (hpre : ("![" ++ label ++ "](https://img.shields.io/badge/" ++ urlLabel ++ "-") = pre)
    (hpost : ("-" ++ color ++ "?style=flat&logoColor=white)") = post)
    (v : String) : specBadgeLink label urlLabel v color = pre ++ v ++ post := by
  unfold specBadgeLink
  rw [hpre, hpost]

/-- C4: for every stats value the badge generator returns exactly the four
fixed-shape markdown image links of the spec, joined by a single space, in
the order Commits, Repos, Pull Requests, Issues with the prescribed
label/color pairs; and (being a pure function) identical stats yield
byte-identical output. -/
theorem generateBadges_format (s t : ActivityStats) (h : s = t) :
    generateBadges s = specBadges s ∧ generateBadges s = generateBadges t := by
  subst h
  refine ⟨?_, rfl⟩
  unfold generateBadges specBadges
  rw [specBadgeLink_eq "Recent Commits" "Recent%20Commits" "blue"
      "![Recent Commits](https://img.shields.io/badge/Recent%20Commits-"
      "-blue?style=flat&logoColor=white)" (by decide) (by decide),
    specBadgeLink_eq "Active Repos" "Active%20Repos" "green"
      "![Active Repos](https://img.shields.io/badge/Active%20Repos-"
      "-green?style=flat&logoColor=white)" (by decide) (by decide),
    specBadgeLink_eq "Pull Requests" "Pull%20Requests" "orange"
      "![Pull Requests](https://img.shields.io/badge/Pull%20Requests-"
      "-orange?style=flat&logoColor=white)" (by decide) (by decide),
    specBadgeLink_eq "Issues Opened" "Issues%20Opened" "red"
      "![Issues Opened](https://img.shields.io/badge/Issues%20Opened-"
      "-red?style=flat&logoColor=white)" (by decide) (by decide)]

/-- Witness for C4 at the spec's end-to-end stats `{2, 1, 0, 1}`. -/
theorem generateBadges_format_witness :
    generateBadges ⟨2, 1, 0, 1⟩ = specBadges ⟨2, 1, 0, 1⟩ ∧
    generateBadges ⟨2, 1, 0, 1⟩ = generateBadges ⟨2, 1, 0, 1⟩ :=
  generateBadges_format _ _ rfl

/-- C9: the activity filter keeps only events whose repository owner
segment (the part of `repo.name` before the first slash) equals the
resolved login; every event with a different owner segment is excluded,
whatever the (clock-dependent) recency test says. -/
theorem filterRecentPersonal_owner (login : String) (isRecent : GitHubEvent → Bool)
    (events : List GitHubEvent) (e : GitHubEvent) :
    (e ∈ filterRecentPersonal login isRecent events →
      ownerSegment e.repo.name = login) ∧
    (ownerSegment e.repo.name ≠ login →
      e ∉ filterRecentPersonal login isRecent events) := by
  constructor
  · intro hm
    rw [filterRecentPersonal, List.mem_filter] at hm
    have hk := hm.2
    simp only [keepsEvent, Bool.and_eq_true, beq_iff_eq] at hk
    exact hk.1
  · intro hne hm
    rw [filterRecentPersonal, List.mem_filter] at hm
    have hk := hm.2
    simp only [keepsEvent, Bool.and_eq_true, beq_iff_eq] at hk
    exact hne hk.1

/-- Witness for C9: an event on `bob/proj` is excluded when the login is
`alice`, even with a recency test that accepts everything. -/
theorem filterRecentPersonal_owner_witness :
    (⟨"PushEvent", ⟨"bob/proj"⟩, ⟨none, none, none⟩, "t"⟩ : GitHubEvent) ∉
      filterRecentPersonal "alice" (fun _ => true)
        [⟨"PushEvent", ⟨"bob/proj"⟩, ⟨none, none, none⟩, "t"⟩] :=
  (filterRecentPersonal_owner "alice" (fun _ => true) _ _).2 (by decide)

/-! ## Marker search: correctness of the `indexOf` embedding -/

theorem hasPref_iff (pat s : List Char) :
    hasPref pat s = true ↔ s.take pat.length = pat := by
  simp [hasPref]

theorem firstIdx_some (pat : List Char) :
    ∀ (s : List Char) (i : Nat), firstIdx pat s = some i →
      occursAt pat s i ∧ ∀ j, j < i → ¬ occursAt pat s j := by
  intro s
  induction s with
  | nil =>
    intro i h
    simp only [firstIdx] at h
    by_cases hp : hasPref pat []
    · rw [if_pos hp] at h
      cases h
      rw [hasPref_iff] at hp
      exact ⟨hp, fun j hj => absurd hj (by omega)⟩
    · rw [if_neg hp] at h
      cases h
  | cons c rest ih =>
    intro i h
    simp only [firstIdx] at h
    by_cases hp : hasPref pat (c :: rest)
    · rw [if_pos hp] at h
      cases h
      rw [hasPref_iff] at hp
      exact ⟨hp, fun j hj => absurd hj (by omega)⟩
    · rw [if_neg hp] at h
      cases hrest : firstIdx pat rest with
      | none => rw [hrest] at h; cases h
      | some k =>
        rw [hrest] at h
        simp only [Option.map_some', Option.some.injEq] at h
        subst h
        obtain ⟨hocc, hmin⟩ := ih k hrest
        refine ⟨hocc, ?_⟩
        intro j hj
        cases j with
        | zero =>
          intro hcon
          exact hp ((hasPref_iff pat (c :: rest)).mpr hcon)
        | succ m =>
          intro hcon
          exact hmin m (by omega) hcon

theorem firstIdx_none (pat : List Char) :
    ∀ s : List Char, firstIdx pat s = none → ∀ i, ¬ occursAt pat s i := by
  intro s
  induction s with
  | nil =>
    intro h i hcon
    simp only [firstIdx] at h
    by_cases hp : hasPref pat []
    · rw [if_pos hp] at h; cases h
    · apply hp
      rw [hasPref_iff]
      unfold occursAt at hcon
      simpa using hcon
  | cons c rest ih =>
    intro h i hcon
    simp only [firstIdx] at h
    by_cases hp : hasPref pat (c :: rest)
    · rw [if_pos hp] at h; cases h
    · rw [if_neg hp] at h
      cases hrest : firstIdx pat rest with
      | some k => rw [hrest] at h; cases h
      | none =>
        cases i with
        | zero => exact hp ((hasPref_iff pat (c :: rest)).mpr hcon)
        | succ m => exact ih hrest m hcon

theorem firstIdx_of_minimal (pat : List Char) :
    ∀ (s : List Char) (i : Nat), occursAt pat s i →
      (∀ j, j < i → ¬ occursAt pat s j) → firstIdx pat s = some i := by
  intro s
  induction s with
  | nil =>
    intro i hocc hmin
    have hp : pat = [] := by
      unfold occursAt at hocc
      simpa using hocc.symm
    have h0 : occursAt pat [] 0 := by
      unfold occursAt
      simp [hp]
    have hi : i = 0 := by
      by_contra hne
      exact hmin 0 (by omega) h0
    subst hi
    simp only [firstIdx, if_pos ((hasPref_iff pat []).mpr hocc)]
  | cons c rest ih =>
    intro i hocc hmin
    by_cases hp : hasPref pat (c :: rest)
    · have h0 : occursAt pat (c :: rest) 0 := (hasPref_iff pat (c :: rest)).mp hp
      have hi : i = 0 := by
        by_contra hne
        exact hmin 0 (by omega) h0
      subst hi
      simp only [firstIdx, if_pos hp]
    · cases i with
      | zero => exact absurd ((hasPref_iff pat (c :: rest)).mpr hocc) hp
      | succ m =>
        have hrest : firstIdx pat rest = some m :=
          ih m hocc (fun j hj hcon => hmin (j + 1) (by omega) hcon)
        simp only [firstIdx, if_neg hp, hrest, Option.map_some']

theorem occursAt_length {pat s : List Char} {i : Nat} (hne : pat ≠ [])
    (h : occursAt pat s i) : i + pat.length ≤ s.length := by
  unfold occursAt at h
  have hl := congrArg List.length h
  simp only [List.length_take, List.length_drop] at hl
  have hp : 0 < pat.length := List.length_pos.mpr hne
  omega

theorem occursAt_append_right (pat u v : List Char) (j : Nat)
    (h : occursAt pat v j) : occursAt pat (u ++ v) (u.length + j) := by
  unfold occursAt at *
  rw [List.drop_append]
  exact h

theorem occursAt_append_shift {pat u v : List Char} {j : Nat}
    (hj : u.length ≤ j) (h : occursAt pat (u ++ v) j) :
    occursAt pat v (j - u.length) := by
  unfold occursAt at *
  have hju : u.length + (j - u.length) = j := by omega
  rw [← hju, List.drop_append] at h
  exact h

theorem occursAt_append_left {pat u : List Char} (v : List Char) {j : Nat}
    (hle : j + pat.length ≤ u.length) (h : occursAt pat u j) :
    occursAt pat (u ++ v) j := by
  unfold occursAt at *
  rw [List.drop_append_of_le_length (by omega),
    List.take_append_of_le_length (by simp only [List.length_drop]; omega)]
  exact h

theorem occursAt_of_append_left {pat u v : List Char} {j : Nat}
    (hle : j + pat.length ≤ u.length) (h : occursAt pat (u ++ v) j) :
    occursAt pat u j := by
  unfold occursAt at *
  rw [List.drop_append_of_le_length (by omega),
    List.take_append_of_le_length (by simp only [List.length_drop]; omega)] at h
  exact h

theorem occursAt_of_take {pat s : List Char} {n j : Nat}
    (hle : j + pat.length ≤ (s.take n).length)
    (h : occursAt pat (s.take n) j) : occursAt pat s j := by
  have h2 := occursAt_append_left (s.drop n) hle h
  rwa [List.take_append_drop] at h2

theorem occursAt_take {pat s : List Char} {n j : Nat}
    (hle : j + pat.length ≤ (s.take n).length)
    (h : occursAt pat s j) : occursAt pat (s.take n) j := by
  apply occursAt_of_append_left hle (v := s.drop n)
  rwa [List.take_append_drop]

theorem occursAt_getElem? {pat s : List Char} {j : Nat}
    (hne : pat ≠ []) (h : occursAt pat s j) : s[j]? = pat[0]? := by
  unfold occursAt at h
  have h0 := congrArg (fun l : List Char => l[0]?) h
  simp only at h0
  rw [List.getElem?_take, if_pos (List.length_pos.mpr hne)] at h0
  rw [List.getElem?_drop] at h0
  simpa using h0

/-! ## Claim about the empty event list -/

/-- C8: for the empty event list the activity formatter returns the header
followed by an explicit no-activity statement (the output contains the
sentence verbatim), and the stats aggregator yields all-zero counters. -/
theorem formatActivity_empty_and_zero_stats (nowStr : String)
    (fmtTime : String → String) :
    formatActivityForAI nowStr fmtTime [] =
      ("GitHub Activity from the Past 24 Hours (as of " ++ nowStr ++
        " Shanghai time):\n\n") ++
        "No recent activity in personal repositories during the past 24 hours.\n" ∧
    containsSub "No recent activity in personal repositories during the past 24 hours."
      (formatActivityForAI nowStr fmtTime []) = true ∧
    calculateActivityStats [] = ⟨0, 0, 0, 0⟩ := by
  refine ⟨rfl, ?_, rfl⟩
  unfold containsSub
  have hocc : occursAt
      "No recent activity in personal repositories during the past 24 hours.".data
      ((("GitHub Activity from the Past 24 Hours (as of " ++ nowStr ++
        " Shanghai time):\n\n").data) ++
        "No recent activity in personal repositories during the past 24 hours.\n".data)
      ((("GitHub Activity from the Past 24 Hours (as of " ++ nowStr ++
        " Shanghai time):\n\n").data).length + 0) :=
    occursAt_append_right _ _ _ 0 (by decide)
  have hdata : (formatActivityForAI nowStr fmtTime []).data =
      (("GitHub Activity from the Past 24 Hours (as of " ++ nowStr ++
        " Shanghai time):\n\n").data) ++
        "No recent activity in personal repositories during the past 24 hours.\n".data := by
    simp [formatActivityForAI]
  rw [hdata]
  cases hf : firstIdx
      "No recent activity in personal repositories during the past 24 hours.".data
      ((("GitHub Activity from the Past 24 Hours (as of " ++ nowStr ++
        " Shanghai time):\n\n").data) ++
        "No recent activity in personal repositories during the past 24 hours.\n".data) with
  | none => exact absurd hocc (firstIdx_none _ _ hf _)
  | some k => simp

/-! ## Claims about the README updater -/

/-- C5: when either marker string is absent from the file contents, the
README updater errors out (modelled as `none`): no new contents are
produced and no write happens, so the target file is left unchanged. -/
theorem updateReadme_missing_marker (summary badges shanghaiTime content : List Char)
    (h : firstIdx startMarkerL content = none ∨ firstIdx endMarkerL content = none) :
    updateReadme summary badges shanghaiTime content = none := by
  unfold updateReadme
  rcases h with h | h
  · rw [h]
  · rw [h]
    cases firstIdx startMarkerL content <;> rfl

/-- Witness for C5: a file with no markers is rejected. -/
theorem updateReadme_missing_marker_witness :
    updateReadme "S".data "B".data "T".data "# README without markers\n".data = none :=
  updateReadme_missing_marker _ _ _ _ (Or.inl (by decide))

/-- C6: when both markers are present (first start-marker occurrence
ending at or before the first end-marker occurrence, so the marker span
exists), the updater keeps the prefix up to and including the start
marker and the suffix from the end marker on (so both markers and all
text outside the span are preserved byte-for-byte), and replaces exactly
the substring strictly between them with the template block. -/
theorem updateReadme_frame (summary badges shanghaiTime content : List Char)
    (si ei : Nat)
    (hs : firstIdx startMarkerL content = some si)
    (he : firstIdx endMarkerL content = some ei)
    (hord : si + startMarkerL.length ≤ ei) :
    updateReadme summary badges shanghaiTime content =
      some (content.take (si + startMarkerL.length) ++
        templateBlock summary badges shanghaiTime ++ content.drop ei) ∧
    content.take (si + startMarkerL.length) = content.take si ++ startMarkerL ∧
    (content.drop ei).take endMarkerL.length = endMarkerL ∧
    content = content.take (si + startMarkerL.length) ++
      ((content.drop (si + startMarkerL.length)).take (ei - (si + startMarkerL.length))) ++
      content.drop ei := by
  obtain ⟨hso, -⟩ := firstIdx_some _ _ _ hs
  obtain ⟨heo, -⟩ := firstIdx_some _ _ _ he
  have hso' : (content.drop si).take startMarkerL.length = startMarkerL := hso
  have heo' : (content.drop ei).take endMarkerL.length = endMarkerL := heo
  refine ⟨?_, ?_, heo', ?_⟩
  · unfold updateReadme
    rw [hs, he]
  · rw [List.take_add, hso']
  · have hdec : content.drop ei =
        (content.drop (si + startMarkerL.length)).drop
          (ei - (si + startMarkerL.length)) := by
      rw [List.drop_drop]
      congr 1
      omega
    conv_lhs => rw [← List.take_append_drop (si + startMarkerL.length) content]
    rw [List.append_assoc, hdec, List.take_append_drop, List.take_append_drop]
    exact (List.take_append_drop _ _).symm

/-- Witness for C6 on a concrete file with the markers in order. -/
theorem updateReadme_frame_witness :
    updateReadme "S".data "B".data "T".data
        "<!-- GITHUB_ACTIVITY_START --> middle <!-- GITHUB_ACTIVITY_END -->".data =
      some ("<!-- GITHUB_ACTIVITY_START --> middle <!-- GITHUB_ACTIVITY_END -->".data.take
          (0 + startMarkerL.length) ++
        templateBlock "S".data "B".data "T".data ++
        "<!-- GITHUB_ACTIVITY_START --> middle <!-- GITHUB_ACTIVITY_END -->".data.drop 38) :=
  (updateReadme_frame _ _ _ _ 0 38 (by decide) (by decide) (by decide)).1

theorem updateReadme_run (summary badges shanghaiTime content : List Char)
    (i j : Nat)
    (hs : firstIdx startMarkerL content = some i)
    (he : firstIdx endMarkerL content = some j) :
    updateReadme summary badges shanghaiTime content =
      some (content.take (i + startMarkerL.length) ++
        templateBlock summary badges shanghaiTime ++ content.drop j) := by
  unfold updateReadme
  rw [hs, he]

/-- C7 (amended): when the first start-marker occurrence ends at or before
the first end-marker occurrence and the end marker does not occur inside
the spliced block nor straddling its end (the `hblock` hypothesis, which
holds whenever the summary and badges do not contain the marker strings),
the updater is idempotent: a second run with the same summary, badges and
timestamp reproduces the once-updated file exactly, so text outside the
markers stays as in the original and the text between the markers is the
block of the latest call. -/
theorem updateReadme_idem (summary badges shanghaiTime content : List Char)
    (si ei : Nat)
    (hs : firstIdx startMarkerL content = some si)
    (he : firstIdx endMarkerL content = some ei)
    (hord : si + startMarkerL.length ≤ ei)
    (hblock : firstIdx endMarkerL
        (templateBlock summary badges shanghaiTime ++ endMarkerL) =
      some (templateBlock summary badges shanghaiTime).length) :
    updateReadme summary badges shanghaiTime content =
      some (content.take (si + startMarkerL.length) ++
        templateBlock summary badges shanghaiTime ++ content.drop ei) ∧
    updateReadme summary badges shanghaiTime
        (content.take (si + startMarkerL.length) ++
          templateBlock summary badges shanghaiTime ++ content.drop ei) =
      some (content.take (si + startMarkerL.length) ++
        templateBlock summary badges shanghaiTime ++ content.drop ei) := by
  obtain ⟨hso, hmins⟩ := firstIdx_some _ _ _ hs
  obtain ⟨heo, hmine⟩ := firstIdx_some _ _ _ he
  have hso' : (content.drop si).take startMarkerL.length = startMarkerL := hso
  have heo' : (content.drop ei).take endMarkerL.length = endMarkerL := heo
  have hlsm : startMarkerL.length = 30 := by decide
  have hlem : endMarkerL.length = 28 := by decide
  have hclen : si + startMarkerL.length ≤ content.length :=
    occursAt_length (by decide) hso
  have hlenP : (content.take (si + startMarkerL.length)).length =
      si + startMarkerL.length := by
    rw [List.length_take]
    omega
  refine ⟨updateReadme_run _ _ _ _ _ _ hs he, ?_⟩
  have hPd : (content.take (si + startMarkerL.length)).drop si = startMarkerL := by
    rw [List.drop_take]
    have h30 : si + startMarkerL.length - si = startMarkerL.length := by omega
    rw [h30, hso']
  have houts : occursAt startMarkerL
      (content.take (si + startMarkerL.length) ++
        (templateBlock summary badges shanghaiTime ++ content.drop ei)) si := by
    unfold occursAt
    rw [List.drop_append_of_le_length (by omega), hPd, List.take_left]
  have hmins2 : ∀ j, j < si → ¬ occursAt startMarkerL
      (content.take (si + startMarkerL.length) ++
        (templateBlock summary badges shanghaiTime ++ content.drop ei)) j := by
    intro j hj hcon
    have hjP : j + startMarkerL.length ≤
        (content.take (si + startMarkerL.length)).length := by
      rw [hlenP]
      omega
    exact hmins j hj (occursAt_of_take hjP (occursAt_of_append_left hjP hcon))
  have hfs2 : firstIdx startMarkerL
      (content.take (si + startMarkerL.length) ++
        (templateBlock summary badges shanghaiTime ++ content.drop ei)) = some si :=
    firstIdx_of_minimal _ _ _ houts hmins2
  have hQ : content.drop ei =
      endMarkerL ++ (content.drop ei).drop endMarkerL.length := by
    conv_lhs => rw [← List.take_append_drop endMarkerL.length (content.drop ei)]
    rw [heo']
  have houte : occursAt endMarkerL
      (content.take (si + startMarkerL.length) ++
        (templateBlock summary badges shanghaiTime ++ content.drop ei))
      (si + startMarkerL.length + (templateBlock summary badges shanghaiTime).length) := by
    unfold occursAt
    rw [← List.append_assoc, List.drop_left' (by rw [List.length_append, hlenP])]
    exact heo'
  have hmine2 : ∀ j, j < si + startMarkerL.length +
      (templateBlock summary badges shanghaiTime).length → ¬ occursAt endMarkerL
      (content.take (si + startMarkerL.length) ++
        (templateBlock summary badges shanghaiTime ++ content.drop ei)) j := by
    intro j hj hcon
    by_cases hc1 : j + endMarkerL.length ≤ si + startMarkerL.length
    · have hjP : j + endMarkerL.length ≤
          (content.take (si + startMarkerL.length)).length := by
        rw [hlenP]
        exact hc1
      have hcocc : occursAt endMarkerL content j :=
        occursAt_of_take hjP (occursAt_of_append_left hjP hcon)
      exact hmine j (by omega) hcocc
    · by_cases hc2 : si + startMarkerL.length ≤ j
      · have hshift := occursAt_append_shift (by rw [hlenP]; exact hc2) hcon
        rw [hlenP] at hshift
        have hBQ : templateBlock summary badges shanghaiTime ++ content.drop ei =
            (templateBlock summary badges shanghaiTime ++ endMarkerL) ++
              (content.drop ei).drop endMarkerL.length := by
          rw [List.append_assoc, ← hQ]
        rw [hBQ] at hshift
        have hj' : (j - (si + startMarkerL.length)) + endMarkerL.length ≤
            (templateBlock summary badges shanghaiTime ++ endMarkerL).length := by
          rw [List.length_append]
          omega
        obtain ⟨-, hbmin⟩ := firstIdx_some _ _ _ hblock
        exact hbmin _ (by omega) (occursAt_of_append_left hj' hshift)
      · have hhead := occursAt_getElem? (by decide) hcon
        have hjP : j < (content.take (si + startMarkerL.length)).length := by
          rw [hlenP]
          omega
        have hchain : startMarkerL[(j - si)]? = endMarkerL[0]? := by
          calc startMarkerL[(j - si)]?
              = ((content.drop si).take startMarkerL.length)[(j - si)]? := by
                rw [hso']
            _ = (content.drop si)[(j - si)]? := by
                rw [List.getElem?_take, if_pos (show j - si < startMarkerL.length by omega)]
            _ = content[si + (j - si)]? := by
                rw [List.getElem?_drop]
            _ = content[j]? := by
                congr 1
                omega
            _ = (content.take (si + startMarkerL.length))[j]? := by
                rw [List.getElem?_take, if_pos (show j < si + startMarkerL.length by omega)]
            _ = (content.take (si + startMarkerL.length) ++
                  (templateBlock summary badges shanghaiTime ++ content.drop ei))[j]? := by
                rw [List.getElem?_append_left hjP]
            _ = endMarkerL[0]? := hhead
        have hfact : ∀ k : Nat, k < 30 → 3 ≤ k →
            ¬ (startMarkerL[k]? = endMarkerL[0]?) := by decide
        exact hfact (j - si) (by omega) (by omega) hchain
  have hfe2 : firstIdx endMarkerL
      (content.take (si + startMarkerL.length) ++
        (templateBlock summary badges shanghaiTime ++ content.drop ei)) =
      some (si + startMarkerL.length +
        (templateBlock summary badges shanghaiTime).length) :=
    firstIdx_of_minimal _ _ _ houte hmine2
  have h2 := updateReadme_run summary badges shanghaiTime _ _ _ hfs2 hfe2
  rw [List.take_left' hlenP] at h2
  rw [show (content.take (si + startMarkerL.length) ++
      (templateBlock summary badges shanghaiTime ++ content.drop ei)) =
      ((content.take (si + startMarkerL.length) ++
        templateBlock summary badges shanghaiTime) ++ content.drop ei) from
    (List.append_assoc _ _ _).symm] at h2
  rw [List.drop_left' (by rw [List.length_append, hlenP])] at h2
  exact h2

/-- Counterexample to C7 as literally stated: with a summary that contains
the end-marker string, running the updater a second time (same summary,
badges and timestamp) does not reproduce the once-updated file — the
second run cuts the block at the end marker embedded in the summary, so
the text between the markers no longer equals the block and the file
differs from the single-run result that the claim pins down. -/
theorem updateReadme_idem_cex :
    ((updateReadme "<!-- GITHUB_ACTIVITY_END -->".data "B".data "T".data
        "<!-- GITHUB_ACTIVITY_START -->mid<!-- GITHUB_ACTIVITY_END -->".data).bind
      (updateReadme "<!-- GITHUB_ACTIVITY_END -->".data "B".data "T".data)) ≠
    updateReadme "<!-- GITHUB_ACTIVITY_END -->".data "B".data "T".data
      "<!-- GITHUB_ACTIVITY_START -->mid<!-- GITHUB_ACTIVITY_END -->".data := by
  decide

/-- Witness for the amended C7 on a concrete file and marker-free
summary/badges/timestamp: the second run reproduces the first run's
output exactly. -/
theorem updateReadme_idem_witness :
    updateReadme "S".data "B".data "T".data
        ("<!-- GITHUB_ACTIVITY_START --> middle <!-- GITHUB_ACTIVITY_END -->".data.take
            (0 + startMarkerL.length) ++
          templateBlock "S".data "B".data "T".data ++
          "<!-- GITHUB_ACTIVITY_START --> middle <!-- GITHUB_ACTIVITY_END -->".data.drop 38) =
      some ("<!-- GITHUB_ACTIVITY_START --> middle <!-- GITHUB_ACTIVITY_END -->".data.take
            (0 + startMarkerL.length) ++
          templateBlock "S".data "B".data "T".data ++
          "<!-- GITHUB_ACTIVITY_START --> middle <!-- GITHUB_ACTIVITY_END -->".data.drop 38) :=
  (updateReadme_idem "S".data "B".data "T".data _ 0 38 (by decide) (by decide)
    (by decide) (by decide)).2
